import Mathlib

/-!
Verification of the dz-mcall core (src/mcall.go and the leader-election
variant src/unnamed/part_003) against its natural-language specification.

The Go code is shallowly embedded: pure fragments become Lean functions,
the per-batch orchestration loop of App.execCmd becomes explicit state
passing over the deduplication map, and the external effects (child
processes, HTTP requests, the Kubernetes coordination store) are oracles
passed in as parameters.  Go's encoding/base64 and encoding/json stdlib
calls are modelled by executable Lean functions that are faithful on the
fragment this repository exercises (ASCII payloads, escape-free strings,
integer literals); divergences outside that fragment are noted inline.
-/

namespace Mcall

/-! ## Bytes and ASCII strings

Go strings are byte slices; the params and JSON payloads handled by
mcall are ASCII, where bytes and characters coincide one-to-one. -/

/-- The bytes of a string (faithful to Go's `[]byte(s)` for ASCII data). -/
def strBytes (s : String) : List Nat := s.data.map Char.toNat

/-- A string from bytes (faithful to Go's `string(b)` for ASCII data). -/
def bytesStr (bs : List Nat) : String := String.mk (bs.map (fun b => Char.ofNat (b % 256)))

/-! ## base64 (Go encoding/base64)

`base64.StdEncoding` / `base64.URLEncoding` with padding, as used by
`parseInputParams` (decode, std only) and `formatResult` (encode).
Go's default decoder rejects characters outside the alphabet and
malformed padding but accepts non-canonical trailing bits; newline
skipping is not modelled (no payload here contains newlines). -/

/-- Standard-alphabet character for a 6-bit index. -/
def b64CharStd (i : Nat) : Char :=
  if i < 26 then Char.ofNat (65 + i)
  else if i < 52 then Char.ofNat (97 + (i - 26))
  else if i < 62 then Char.ofNat (48 + (i - 52))
  else if i = 62 then '+' else '/'

/-- URL-alphabet character for a 6-bit index (differs at 62 and 63). -/
def b64CharUrl (i : Nat) : Char :=
  if i < 62 then b64CharStd i
  else if i = 62 then '-' else '_'

/-- Standard-alphabet index of a character, `none` outside the alphabet. -/
def b64IndexStd (c : Char) : Option Nat :=
  let n := c.toNat
  if 65 ≤ n ∧ n ≤ 90 then some (n - 65)
  else if 97 ≤ n ∧ n ≤ 122 then some (n - 97 + 26)
  else if 48 ≤ n ∧ n ≤ 57 then some (n - 48 + 52)
  else if n = 43 then some 62
  else if n = 47 then some 63
  else none

/-- Padded base64 encoding of a byte list over a given alphabet. -/
def b64EncodeChunks (tbl : Nat → Char) : List Nat → List Char
  | b1 :: b2 :: b3 :: rest =>
    tbl (b1 / 4) :: tbl ((b1 % 4) * 16 + b2 / 16) :: tbl ((b2 % 16) * 4 + b3 / 64) ::
      tbl (b3 % 64) :: b64EncodeChunks tbl rest
  | [b1, b2] => [tbl (b1 / 4), tbl ((b1 % 4) * 16 + b2 / 16), tbl ((b2 % 16) * 4), '=']
  | [b1] => [tbl (b1 / 4), tbl ((b1 % 4) * 16), '=', '=']
  | [] => []

/-- Padded standard-alphabet base64 decoding, as `base64.StdEncoding.DecodeString`:
four-character groups, `=` padding only at the end, `none` on any violation. -/
def b64DecodeGroups : List Char → Option (List Nat)
  | [] => some []
  | c1 :: c2 :: c3 :: c4 :: rest =>
    match b64IndexStd c1, b64IndexStd c2 with
    | some i1, some i2 =>
      if c3 = '=' then
        if c4 = '=' ∧ rest = [] then some [i1 * 4 + i2 / 16] else none
      else
        match b64IndexStd c3 with
        | some i3 =>
          if c4 = '=' then
            if rest = [] then some [i1 * 4 + i2 / 16, (i2 % 16) * 16 + i3 / 4] else none
          else
            match b64IndexStd c4, b64DecodeGroups rest with
            | some i4, some bs =>
              some ((i1 * 4 + i2 / 16) :: ((i2 % 16) * 16 + i3 / 4) :: ((i3 % 4) * 64 + i4) :: bs)
            | _, _ => none
        | none => none
    | _, _ => none
  | _ => none

/-- `base64.StdEncoding.EncodeToString([]byte(s))` for ASCII `s`. -/
def b64EncodeStdString (s : String) : String :=
  String.mk (b64EncodeChunks b64CharStd (strBytes s))

/-- `base64.URLEncoding.EncodeToString([]byte(s))` for ASCII `s`. -/
def b64EncodeUrlString (s : String) : String :=
  String.mk (b64EncodeChunks b64CharUrl (strBytes s))

/-- `base64.StdEncoding.DecodeString` returning the decoded text. -/
def b64DecodeStdString (s : String) : Option String :=
  (b64DecodeGroups s.data).map bytesStr

/-! ## JSON (Go encoding/json)

An executable model of the JSON values and of `json.Unmarshal` as used
by `parseInputParams`, `parseConfigInput` and the task worker.  The
grammar is Go's: strings with the plain and `\uXXXX` escapes
(including Go's lenient replacement of broken surrogates), numbers
with fraction and exponent and without leading zeros, objects with
duplicate keys resolved last-wins by the map unmarshal.  Numbers are
kept exactly as decimal mantissa and power of ten; Go additionally
converts them to `float64` and turns an over- or underflowing literal
into an unmarshal error — a floating-point boundary this model does
not reproduce (it accepts such literals; see `parseNumberTail`). -/

inductive Json where
  | jnull : Json
  | jbool : Bool → Json
  | jnum : Int → Int → Json
  | jstr : String → Json
  | jarr : List Json → Json
  | jobj : List (String × Json) → Json
  deriving Repr, Inhabited

/-- Skip JSON insignificant whitespace. -/
def skipWs : List Char → List Char
  | c :: rest => if c = ' ' ∨ c = '\t' ∨ c = '\n' ∨ c = '\r' then skipWs rest else c :: rest
  | [] => []

/-- Value of one hex digit. -/
def hexDigitVal (c : Char) : Option Nat :=
  if '0' ≤ c ∧ c ≤ '9' then some (c.toNat - 48)
  else if 'a' ≤ c ∧ c ≤ 'f' then some (c.toNat - 87)
  else if 'A' ≤ c ∧ c ≤ 'F' then some (c.toNat - 55)
  else none

/-- Value of a `\uXXXX` escape's four hex digits. -/
def hexQuad (h1 h2 h3 h4 : Char) : Option Nat :=
  match hexDigitVal h1, hexDigitVal h2, hexDigitVal h3, hexDigitVal h4 with
  | some v1, some v2, some v3, some v4 => some (((v1 * 16 + v2) * 16 + v3) * 16 + v4)
  | _, _, _, _ => none

/-- Body of a JSON string after the opening quote: content and remainder
after the closing quote.  `\uXXXX` follows Go's decoder: a valid
high/low surrogate pair combines into one code point, and a broken
surrogate becomes U+FFFD without an error. -/
def parseStringBody : List Char → Option (List Char × List Char)
  | '"' :: rest => some ([], rest)
  | '\\' :: 'u' :: h1 :: h2 :: h3 :: h4 :: '\\' :: 'u' :: g1 :: g2 :: g3 :: g4 :: rest =>
    (match hexQuad h1 h2 h3 h4 with
     | none => none
     | some n =>
       if 0xD800 ≤ n ∧ n ≤ 0xDBFF then
         (match hexQuad g1 g2 g3 g4 with
          | some m =>
            if 0xDC00 ≤ m ∧ m ≤ 0xDFFF then
              (parseStringBody rest).map (fun (p : List Char × List Char) =>
                (Char.ofNat (0x10000 + (n - 0xD800) * 0x400 + (m - 0xDC00)) :: p.1, p.2))
            else
              (parseStringBody ('\\' :: 'u' :: g1 :: g2 :: g3 :: g4 :: rest)).map
                (fun (p : List Char × List Char) => (Char.ofNat 0xFFFD :: p.1, p.2))
          | none =>
            (parseStringBody ('\\' :: 'u' :: g1 :: g2 :: g3 :: g4 :: rest)).map
              (fun (p : List Char × List Char) => (Char.ofNat 0xFFFD :: p.1, p.2)))
       else
         (parseStringBody ('\\' :: 'u' :: g1 :: g2 :: g3 :: g4 :: rest)).map
           (fun (p : List Char × List Char) =>
             ((if 0xDC00 ≤ n ∧ n ≤ 0xDFFF then Char.ofNat 0xFFFD else Char.ofNat n) :: p.1,
              p.2)))
  | '\\' :: 'u' :: h1 :: h2 :: h3 :: h4 :: rest =>
    (match hexQuad h1 h2 h3 h4 with
     | none => none
     | some n =>
       (parseStringBody rest).map (fun (p : List Char × List Char) =>
         ((if 0xD800 ≤ n ∧ n ≤ 0xDFFF then Char.ofNat 0xFFFD else Char.ofNat n) :: p.1,
          p.2)))
  | '\\' :: e :: rest =>
    (if e = '"' ∨ e = '\\' ∨ e = '/' then some e
     else if e = 'n' then some '\n'
     else if e = 't' then some '\t'
     else if e = 'r' then some '\r'
     else if e = 'b' then some (Char.ofNat 8)
     else if e = 'f' then some (Char.ofNat 12)
     else none).bind
      (fun c => (parseStringBody rest).map (fun (p : List Char × List Char) => (c :: p.1, p.2)))
  | c :: rest =>
    if c.toNat < 32 then none
    else (parseStringBody rest).map (fun (p : List Char × List Char) => (c :: p.1, p.2))
  | [] => none

/-- Longest digit run at the head of the input. -/
def parseDigits : List Char → List Char × List Char
  | c :: rest =>
    if c.isDigit then
      let p := parseDigits rest
      (c :: p.1, p.2)
    else ([], c :: rest)
  | [] => ([], [])

/-- Decimal value of a digit run. -/
def digitsToNat (ds : List Char) : Nat := ds.foldl (fun acc c => acc * 10 + (c.toNat - 48)) 0

/-- Optional fraction part: after `.` at least one digit is required. -/
def parseFrac : List Char → Option (List Char × List Char)
  | '.' :: r =>
    (match parseDigits r with
     | ([], _) => none
     | (ds, rest) => some (ds, rest))
  | cs => some ([], cs)

/-- Optional exponent part: `e`/`E`, optional sign, at least one digit. -/
def parseExp : List Char → Option (Int × List Char)
  | c :: r =>
    if c = 'e' ∨ c = 'E' then
      let p : Int × List Char :=
        match r with
        | '+' :: r2 => (1, r2)
        | '-' :: r2 => (-1, r2)
        | _ => (1, r)
      match parseDigits p.2 with
      | ([], _) => none
      | (ds, rest) => some (p.1 * Int.ofNat (digitsToNat ds), rest)
    else some (0, c :: r)
  | [] => some (0, [])

/-- A JSON number after its optional minus sign, per Go's grammar:
integer part without leading zeros, optional fraction, optional
exponent, kept exactly as mantissa × 10^exponent.  Go feeds the
literal through `strconv.ParseFloat` and rejects it when the float64
conversion over- or underflows; this model accepts such literals, so
it decodes a superset of what Go decodes — on the extra documents the
Go tick skips the claim (unmarshal error) and likewise continues. -/
def parseNumberTail (neg : Bool) (cs : List Char) : Option (Json × List Char) :=
  match parseDigits cs with
  | ([], _) => none
  | (ids, cs2) =>
    match ids with
    | '0' :: _ :: _ => none
    | _ =>
      match parseFrac cs2 with
      | none => none
      | some (fds, cs3) =>
        match parseExp cs3 with
        | none => none
        | some (e, cs4) =>
          let mant : Int := Int.ofNat (digitsToNat (ids ++ fds))
          some (Json.jnum (if neg then -mant else mant) (e - Int.ofNat fds.length), cs4)

mutual

/-- Parse one JSON value (fuel-indexed recursive descent). -/
def parseValue : Nat → List Char → Option (Json × List Char)
  | 0, _ => none
  | fuel + 1, cs =>
    match skipWs cs with
    | 'n' :: 'u' :: 'l' :: 'l' :: rest => some (Json.jnull, rest)
    | 't' :: 'r' :: 'u' :: 'e' :: rest => some (Json.jbool true, rest)
    | 'f' :: 'a' :: 'l' :: 's' :: 'e' :: rest => some (Json.jbool false, rest)
    | '"' :: rest =>
      match parseStringBody rest with
      | some (content, rest2) => some (Json.jstr (String.mk content), rest2)
      | none => none
    | '[' :: rest => parseArrayStart fuel (skipWs rest)
    | '\x7b' :: rest => parseObjectStart fuel (skipWs rest)
    | '-' :: rest => parseNumberTail true rest
    | c :: rest =>
      if c.isDigit then parseNumberTail false (c :: rest)
      else none
    | [] => none

/-- Parse an array after `[` (whitespace already skipped). -/
def parseArrayStart : Nat → List Char → Option (Json × List Char)
  | 0, _ => none
  | fuel + 1, cs =>
    match cs with
    | ']' :: rest => some (Json.jarr [], rest)
    | _ =>
      match parseValue fuel cs with
      | none => none
      | some (v, rest) =>
        match parseArrayTail fuel rest with
        | some (vs, rest2) => some (Json.jarr (v :: vs), rest2)
        | none => none

/-- Parse `, value ... ]` after an array element. -/
def parseArrayTail : Nat → List Char → Option (List Json × List Char)
  | 0, _ => none
  | fuel + 1, cs =>
    match skipWs cs with
    | ']' :: rest => some ([], rest)
    | ',' :: rest =>
      match parseValue fuel rest with
      | none => none
      | some (v, rest2) =>
        match parseArrayTail fuel rest2 with
        | some (vs, rest3) => some (v :: vs, rest3)
        | none => none
    | _ => none

/-- Parse an object after the opening brace (whitespace already skipped). -/
def parseObjectStart : Nat → List Char → Option (Json × List Char)
  | 0, _ => none
  | fuel + 1, cs =>
    match cs with
    | '\x7d' :: rest => some (Json.jobj [], rest)
    | _ =>
      match parseMember fuel cs with
      | none => none
      | some (kv, rest) =>
        match parseObjectTail fuel rest with
        | some (kvs, rest2) => some (Json.jobj (kv :: kvs), rest2)
        | none => none

/-- Parse one `"key" : value` member. -/
def parseMember : Nat → List Char → Option ((String × Json) × List Char)
  | 0, _ => none
  | fuel + 1, cs =>
    match skipWs cs with
    | '"' :: rest =>
      match parseStringBody rest with
      | none => none
      | some (key, rest2) =>
        match skipWs rest2 with
        | ':' :: rest3 =>
          match parseValue fuel rest3 with
          | none => none
          | some (v, rest4) => some ((String.mk key, v), rest4)
        | _ => none
    | _ => none

/-- Parse `, member ... }` after an object member. -/
def parseObjectTail : Nat → List Char → Option (List (String × Json) × List Char)
  | 0, _ => none
  | fuel + 1, cs =>
    match skipWs cs with
    | '\x7d' :: rest => some ([], rest)
    | ',' :: rest =>
      match parseMember fuel rest with
      | none => none
      | some (kv, rest2) =>
        match parseObjectTail fuel rest2 with
        | some (kvs, rest3) => some (kv :: kvs, rest3)
        | none => none
    | _ => none

end

/-- `json.Unmarshal`-style parse of a whole document: one value, then
only whitespace may remain (Go rejects trailing data). -/
def parseJson (s : String) : Option Json :=
  match parseValue (s.data.length + 8) s.data with
  | some (v, rest) => if (skipWs rest).isEmpty then some v else none
  | none => none

/-- The member list as Go's map unmarshal stores it: each duplicated
key keeps only its last occurrence (`m[k] = v` overwrites), so the
result has pairwise-distinct keys and any lookup is the last binding. -/
def dedupFields : List (String × Json) → List (String × Json)
  | [] => []
  | (k, v) :: rest =>
    if rest.any (fun p => p.1 == k) then dedupFields rest
    else (k, v) :: dedupFields rest

/-- Unmarshal one JSON value into Go's `map[string]interface{}`
(an object with duplicate keys resolved last-wins, or `null` for the
nil map). -/
def toJobj : Json → Option (List (String × Json))
  | Json.jobj m => some (dedupFields m)
  | Json.jnull => some []
  | _ => none

/-- Unmarshal into the anonymous struct
`struct { Inputs []map[string]interface{} }` with tag `json:"inputs"`:
the document must be an object (or null); a missing or null `inputs`
field leaves the nil slice; a non-array `inputs` is an error (`none`),
which the callers treat as the zero value.  (On an error midway
through the array Go may leave a prefix assigned; no claim exercises
such mixed documents.) -/
def unmarshalInputs : Json → Option (List (List (String × Json)))
  | Json.jobj fields =>
    match (dedupFields fields).lookup ("inputs") with
    | none => some []
    | some Json.jnull => some []
    | some (Json.jarr items) => items.mapM toJobj
    | some _ => none
  | Json.jnull => some []
  | _ => none

/-- The extraction loop shared by `parseInputParams` and
`parseConfigInput`: for each item append `input` / `type` / `name`
to the respective list when the key is present with a string value. -/
def extractFields : List (List (String × Json)) → List String × List String × List String
  | [] => ([], [], [])
  | item :: rest =>
    let p := extractFields rest
    ((match item.lookup ("input") with
      | some (Json.jstr s) => s :: p.1
      | _ => p.1),
     (match item.lookup ("type") with
      | some (Json.jstr s) => s :: p.2.1
      | _ => p.2.1),
     (match item.lookup ("name") with
      | some (Json.jstr s) => s :: p.2.2
      | _ => p.2.2))

/-- `App.parseInputParams`: try `base64.StdEncoding.DecodeString` first;
on success unmarshal the decoded bytes, otherwise unmarshal the raw
string; unmarshal errors are only logged, leaving the zero value. -/
def parseInputParams (paramStr : String) : List String × List String × List String :=
  let items : List (List (String × Json)) :=
    match b64DecodeStdString paramStr with
    | some decoded =>
      match (parseJson decoded).bind unmarshalInputs with
      | some items => items
      | none => []
    | none =>
      match (parseJson paramStr).bind unmarshalInputs with
      | some items => items
      | none => []
  extractFields items

/-- `App.parseConfigInput`: direct JSON unmarshal only; returns
`nil, nil, nil` on error. -/
def parseConfigInput (inputStr : String) : List String × List String × List String :=
  match (parseJson inputStr).bind unmarshalInputs with
  | some items => extractFields items
  | none => ([], [], [])

/-! ## Work items, deduplication, and the batch orchestrator

`CallFetch.Execute` and `App.execCmd` (identical in src/mcall.go and
src/unnamed/part_003).  The orchestrator submits one item and then
synchronously receives from that item's result channel before
submitting the next, so batch execution is sequential; the probes'
I/O is an oracle parameter.  `MarkProcessed` happens before the result
send, so when the orchestrator reaches occurrence `i+1` of an input the
map already contains occurrence `i`'s outcome. -/

/-- One result (`FetchedResult` without the wall-clock `ts` field,
which is real time and outside the embedding). -/
structure FetchedResult where
  input : String
  name : String
  error : String
  content : String
  deriving Repr, DecidableEq, Inhabited

/-- The per-batch deduplication map `map[string]error` of `FetchedInput`
(value: `none` for a nil error, `some msg` otherwise). -/
abbrev FetchedInput := List (String × Option String)

/-- `FetchedInput.IsProcessed`: key lookup. -/
def isProcessed (fi : FetchedInput) (input : String) : Bool :=
  fi.any (fun p => p.1 == input)

/-- `FetchedInput.MarkProcessed`: record the outcome for the input.
(The stored error value is never read back anywhere in the sources —
only key existence is tested — so association-list shadowing is
observationally identical to the Go map update.) -/
def markProcessed (fi : FetchedInput) (input : String) (err : Option String) : FetchedInput :=
  (input, err) :: fi

/-- The probe kind selected by `CallFetch.Execute`'s switch. -/
inductive ProbeKind where
  | cmd : ProbeKind
  | httpGet : ProbeKind
  | httpPost : ProbeKind
  deriving Repr, DecidableEq

/-- Oracle for `fetchCmd` / `fetchHTTP`: the `(doc, err)` pair the
probe I/O returns for a given kind and input. -/
def Probe := ProbeKind → String → String × Option String

/-- The switch on `cf.sType` (unknown types default to HTTP GET). -/
def dispatchKind (sType : String) : ProbeKind :=
  if sType = "cmd" then ProbeKind.cmd
  else if sType = "get" then ProbeKind.httpGet
  else if sType = "post" then ProbeKind.httpPost
  else ProbeKind.httpGet

/-- Observable outcome of one `CallFetch.Execute`: the updated
deduplication map, the value sent on the item's result channel
(`none` when Execute returned without sending), and the probe
invocations performed. -/
structure ExecOut where
  fi : FetchedInput
  emitted : Option FetchedResult
  calls : List (ProbeKind × String)
  deriving Repr

/-- `CallFetch.Execute`: an already-processed input returns immediately
(sending nothing); an empty input skips the probe; otherwise the probe
runs once; the outcome is recorded and a result with error code
`"0"` / `"-1"` is sent. `parseContent` is the identity. -/
def callFetchExecute (probe : Probe) (fi : FetchedInput) (input sType name : String) : ExecOut :=
  if isProcessed fi input then
    { fi := fi, emitted := none, calls := [] }
  else if input ≠ "" then
    let k := dispatchKind sType
    let r := probe k input
    { fi := markProcessed fi input r.2,
      emitted := some { input := input, name := name,
                        error := if r.2.isSome then "-1" else "0", content := r.1 },
      calls := [(k, input)] }
  else
    { fi := markProcessed fi input none,
      emitted := some { input := input, name := name, error := "0", content := "" },
      calls := [] }

/-- Outcome of a whole batch: `results = none` models the orchestrator
blocking forever on `<-call.result` (the worker never sends), with
`calls` the probe invocations made up to that point. -/
structure BatchOut where
  results : Option (List FetchedResult)
  calls : List (ProbeKind × String)
  deriving Repr

/-- The submission loop of `App.execCmd`: item `i` uses `types[i]` when
`i < len(types)` and `types[0]` otherwise (same for names), is executed,
and its result is received before item `i+1` is submitted. -/
def execCmdLoop (probe : Probe) (types names : List String) :
    FetchedInput → Nat → List String → BatchOut
  | _, _, [] => { results := some [], calls := [] }
  | fi, i, input :: rest =>
    let sType := if i < types.length then types.getD i ("") else types.getD 0 ("")
    let name := if i < names.length then names.getD i ("") else names.getD 0 ("")
    let out := callFetchExecute probe fi input sType name
    match out.emitted with
    | none => { results := none, calls := out.calls }
    | some r =>
      let tail := execCmdLoop probe types names out.fi (i + 1) rest
      { results := tail.results.map (fun rs => r :: rs), calls := out.calls ++ tail.calls }

/-- `App.execCmd`: default `types` to `["cmd"]` and `names` to
`[app.subject]` when empty, then run the submission loop over a fresh
deduplication map.  `formatResult` turns each received result into one
output map (one-to-one, in order), so the received `FetchedResult`
list models the returned record list. -/
def execCmd (probe : Probe) (subject : String) (inputs types names : List String) : BatchOut :=
  let types := if types.isEmpty then ["cmd"] else types
  let names := if names.isEmpty then [subject] else names
  execCmdLoop probe types names [] 0 inputs

/-! ## HTTP handlers

`App.getHandle` writes the response with `w.Write` and never calls
`http.Error` or `WriteHeader`, so its status is always 200;
`App.postHandle` returns 400 exactly for a form parse failure, a
missing `type`, or a missing `params`. -/

/-- `App.getHandle`: status and the batch results
(`none` = the handler itself blocked in `execCmd`). -/
def getHandle (probe : Probe) (subject : String) (paramStr : String) :
    Nat × Option (List FetchedResult) :=
  let p := parseInputParams paramStr
  (200, (execCmd probe subject p.1 p.2.1 p.2.2).results)

/-- `App.postHandle`: `formOk` models whether `r.ParseForm` succeeded. -/
def postHandle (probe : Probe) (subject : String) (formOk : Bool)
    (sType _name paramStr : String) : Nat × Option (List FetchedResult) :=
  if formOk = false then (400, none)
  else if sType = "" then (400, none)
  else if paramStr = "" then (400, none)
  else
    let p := parseInputParams paramStr
    (200, (execCmd probe subject p.1 p.2.1 p.2.2).results)

/-! ## Probe timeouts

`exeCmd` (src/mcall.go line 377) always passes the constant
`DefaultTimeoutDuration = DefaultTimeout * time.Second` to
`context.WithTimeout`, and `fetchHTTP` (line 327) sets
`http.Client.Timeout` to the same constant; no per-item value reaches
either probe (and `parseInputParams` never extracts a `timeout` field). -/

/-- The `DefaultTimeout` constant (seconds). -/
def DefaultTimeout : Nat := 10

/-- Wall-clock deadline (seconds) that `exeCmd` installs on the command
context for a given command string: the constant default, always. -/
def exeCmdTimeoutSeconds (_str : String) : Nat := DefaultTimeout

/-- Timeout (seconds) of the HTTP client built by `fetchHTTP`
for a given URL: the constant default, always. -/
def fetchHTTPTimeoutSeconds (_url : String) : Nat := DefaultTimeout

/-! ## Expectation evaluation

The current sources have no expectation evaluator: `CallFetch` carries
no `expect` field, `parseInputParams` drops `expect` keys, and
`Execute` derives the error code from the probe error alone.  The
substring check below models Go's `strings.Contains`, used only to
state what the specified evaluator would have required. -/

/-- Substring occurrence on character lists (`strings.Contains`). -/
def charsContains : List Char → List Char → Bool
  | _, [] => true
  | [], _ :: _ => false
  | c :: rest, p :: ps => List.isPrefixOf (p :: ps) (c :: rest) || charsContains rest (p :: ps)

/-- `strings.Contains s sub`. -/
def strContains (s sub : String) : Bool := charsContains s.data sub.data

/-! ## Task distribution (leader role, src/unnamed/part_003)

`App.distributeTasks` lists pods labelled `project=mcall`, keeps the
running ones other than itself, and for task `i` creates a ConfigMap
claim for follower `i % len(workerPods)` via `App.assignTaskToPod`.
The coordination store is modelled by the list of create requests the
round emits; `ts` stands for `time.Now().Unix()`. -/

/-- A pod as seen through the store listing: name and phase. -/
structure PodInfo where
  name : String
  phase : String
  deriving Repr, DecidableEq

/-- The follower set: running pods other than this host, in listing order. -/
def filterWorkerPods (hostname : String) (pods : List PodInfo) : List String :=
  (pods.filter (fun p => p.name != hostname && p.phase == "Running")).map PodInfo.name

/-- One generated task (`map[string]interface{}` with keys
`id`, `command`, `type`, `name`, all strings). -/
structure Task where
  id : String
  command : String
  ttype : String
  name : String
  deriving Repr, DecidableEq, Inhabited

/-- `json.Marshal` of a task map; Go serializes map keys in sorted
order (`command`, `id`, `name`, `type`).  Faithful for field values
that need no JSON escaping, which `generateTasks` output satisfies
for the configurations considered here. -/
def serializeTask (t : Task) : String :=
  "\x7b\"command\":\"" ++ t.command ++ "\",\"id\":\"" ++ t.id ++ "\",\"name\":\"" ++
    t.name ++ "\",\"type\":\"" ++ t.ttype ++ "\"\x7d"

/-- The loop body of `App.generateTasks`: ids are `task-<i+1>`, the
type defaults to `cmd` and the name to `app.subject` past the end of
the respective lists. -/
def generateTasksLoop (subject : String) (types names : List String) :
    Nat → List String → List Task
  | _, [] => []
  | i, input :: rest =>
    { id := "task-" ++ toString (i + 1),
      command := input,
      ttype := if i < types.length then types.getD i ("") else "cmd",
      name := if i < names.length then names.getD i ("") else subject } ::
      generateTasksLoop subject types names (i + 1) rest

/-- `App.generateTasks`: tasks from the configured batch descriptor. -/
def generateTasks (subject : String) (configInput : String) : List Task :=
  if configInput = "" then []
  else
    let p := parseConfigInput configInput
    generateTasksLoop subject p.2.1 p.2.2 0 p.1

/-- A create request for a task ConfigMap (`App.assignTaskToPod`). -/
structure ClaimRecord where
  name : String
  labels : List (String × String)
  annotations : List (String × String)
  deriving Repr, DecidableEq

/-- `App.assignTaskToPod`: the ConfigMap it asks the store to create. -/
def assignTaskToPod (podName : String) (task : Task) (ts : Nat) : ClaimRecord :=
  { name := "task-" ++ podName ++ "-" ++ toString ts,
    labels := [("project", "mcall"), ("task", "true"), ("assigned-to", podName)],
    annotations := [("task-data", serializeTask task)] }

/-- The assignment loop of `App.distributeTasks`:
`workerPods[i % len(workerPods)]` for task `i`; a failed create is
logged and skipped, so the emitted request sequence is unconditional. -/
def distributeLoop (workerPods : List String) (ts : Nat) : Nat → List Task → List ClaimRecord
  | _, [] => []
  | i, task :: rest =>
    assignTaskToPod (workerPods.getD (i % workerPods.length) ("")) task ts ::
      distributeLoop workerPods ts (i + 1) rest

/-- `App.distributeTasks`: the claim-create requests of one round.
With no tasks, or with no follower pods, the round emits nothing. -/
def distributeTasks (hostname : String) (pods : List PodInfo) (tasks : List Task) (ts : Nat) :
    List ClaimRecord :=
  let workerPods := filterWorkerPods hostname pods
  if tasks.isEmpty then []
  else if workerPods.isEmpty then []
  else distributeLoop workerPods ts 0 tasks

/-! ## Task worker (follower role, src/unnamed/part_003)

`App.processAssignedTasks` walks the listed claims; `App.executeTask`
re-extracts the four task fields with Go type assertions
(`task["id"].(string)` etc.), which panic — aborting the tick and the
process — when a field is missing or not a string.  Store updates that
fail are logged and the loop continues; `updateOk` models which update
calls succeed. -/

/-- A task ConfigMap as listed by the follower. -/
structure TaskClaim where
  name : String
  annotations : List (String × String)
  deriving Repr, DecidableEq, Inhabited

/-- Go map read `cm.Annotations[k]` (missing key gives `""`). -/
def annGet (cm : TaskClaim) (k : String) : String :=
  (cm.annotations.lookup k).getD ""

/-- Go map write `cm.Annotations[k] = v`. -/
def annSet (anns : List (String × String)) (k v : String) : List (String × String) :=
  if anns.any (fun p => p.1 == k) then
    anns.map (fun p => if p.1 == k then (k, v) else p)
  else anns ++ [(k, v)]

/-- `App.executeTask`: type-assert the four fields of the unmarshalled
map (duplicate keys already resolved last-wins by `toJobj`), then run
the command through `execCmd` as a single-item batch and log the
results.  `none` models the type-assertion panic. -/
def executeTask (probe : Probe) (subject : String) (task : List (String × Json)) :
    Option (List FetchedResult) :=
  match task.lookup ("id"), task.lookup ("command"),
        task.lookup ("type"), task.lookup ("name") with
  | some (Json.jstr _id), some (Json.jstr command),
      some (Json.jstr ttype), some (Json.jstr tname) =>
    some ((execCmd probe subject [command] [ttype] [tname]).results.getD [])
  | _, _, _, _ => none

/-- Does an `Option Json` hold a JSON string? (shape of a successful
`.(string)` type assertion). -/
def isJstr : Option Json → Bool
  | some (Json.jstr _) => true
  | _ => false

/-- Does a decoded task object carry all four fields as strings
(so that `executeTask`'s type assertions cannot panic)? -/
def taskTyped (task : List (String × Json)) : Bool :=
  isJstr (task.lookup ("id")) && isJstr (task.lookup ("command")) &&
    isJstr (task.lookup ("type")) && isJstr (task.lookup ("name"))

/-- A claim that cannot make the tick panic: it is skipped (already
processed, no task data, or undecodable data) or its payload is a
fully string-typed task object. -/
def claimSafe (cm : TaskClaim) : Bool :=
  annGet cm ("processed") == "true" ||
  annGet cm ("task-data") == "" ||
  (match (parseJson (annGet cm ("task-data"))).bind toJobj with
   | none => true
   | some task => taskTyped task)

/-- `App.processAssignedTasks`: one tick over the listed claims.
`Except.error name` models the process-killing panic inside
`executeTask` at the named claim; `Except.ok l` is the store contents
for these claims after the tick (an unprocessed claim whose update
failed stays unchanged). -/
def processAssignedTasks (probe : Probe) (subject podName nowStr : String)
    (updateOk : String → Bool) : List TaskClaim → Except String (List TaskClaim)
  | [] => Except.ok []
  | cm :: rest =>
    if annGet cm ("processed") = "true" then
      (processAssignedTasks probe subject podName nowStr updateOk rest).map
        (fun l => cm :: l)
    else if annGet cm ("task-data") = "" then
      (processAssignedTasks probe subject podName nowStr updateOk rest).map
        (fun l => cm :: l)
    else
      match (parseJson (annGet cm ("task-data"))).bind toJobj with
      | none =>
        (processAssignedTasks probe subject podName nowStr updateOk rest).map
          (fun l => cm :: l)
      | some task =>
        match executeTask probe subject task with
        | none => Except.error cm.name
        | some _results =>
          let cm2 : TaskClaim :=
            { cm with annotations :=
                annSet (annSet (annSet cm.annotations ("processed") ("true"))
                  ("processed-at") nowStr) ("processed-by") podName }
          let stored := if updateOk cm.name then cm2 else cm
          (processAssignedTasks probe subject podName nowStr updateOk rest).map
            (fun l => stored :: l)

/-! ## Concrete fixtures for the evaluations below -/

/-- Probe oracle: every probe succeeds and returns a newline-terminated
echo output. -/
def probeEcho : Probe := fun _ _ => ("x\n", none)

/-- Probe oracle: every probe succeeds with content `"hello\n"`. -/
def probeHello : Probe := fun _ _ => ("hello\n", none)

/-- Probe oracle: every probe succeeds with empty content. -/
def probeNull : Probe := fun _ _ => ("", none)

/-- A params document whose item carries an `expect` expression. -/
def paramsExpectDemo : String :=
  "\x7b\"inputs\":[\x7b\"input\":\"echo hello\",\"expect\":\"a|b|c\"\x7d]\x7d"

/-- A params document whose item carries a `timeout` value. -/
def paramsTimeoutDemo : String :=
  "\x7b\"inputs\":[\x7b\"input\":\"sleep 30\",\"timeout\":\"1\"\x7d]\x7d"

/-- A params document whose first item omits `type` and whose second
item sets `type = "get"`. -/
def paramsTypeDemo : String :=
  "\x7b\"inputs\":[\x7b\"input\":\"a\"\x7d,\x7b\"input\":\"b\",\"type\":\"get\"\x7d]\x7d"

/-- A params document whose base64 encodings differ between the
standard and URL alphabets (the byte `0x7E` yields index 62). -/
def paramsTilde : String := "\x7b\"inputs\":[\x7b\"input\":\"~~~\"\x7d]\x7d"

/-- A plain single-command params document. -/
def paramsStdDemo : String := "\x7b\"inputs\":[\x7b\"input\":\"pwd\"\x7d]\x7d"

/-- A pod listing: two running followers, this host, and a pending pod. -/
def podsDemo : List PodInfo :=
  [{ name := "p1", phase := "Running" }, { name := "p2", phase := "Running" },
   { name := "self", phase := "Running" }, { name := "p3", phase := "Pending" }]

/-- Three generated tasks. -/
def tasksDemo : List Task :=
  [{ id := "task-1", command := "pwd", ttype := "cmd", name := "s" },
   { id := "task-2", command := "ls", ttype := "cmd", name := "s" },
   { id := "task-3", command := "date", ttype := "cmd", name := "s" }]

/-- A claim whose task payload decodes to an object with no `id`
field: `executeTask`'s type assertion panics on it. -/
def claimBad : TaskClaim :=
  { name := "cm1", annotations := [("task-data", "\x7b\"command\":\"x\"\x7d")] }

/-- A claim whose payload Go's decoder accepts (a fractional number)
but whose `id` is not a string: the type assertion panics on it. -/
def claimFloat : TaskClaim :=
  { name := "cm4",
    annotations :=
      [("task-data",
        "\x7b\"id\":1.5,\"command\":\"c\",\"type\":\"cmd\",\"name\":\"n\"\x7d")] }

/-- A claim whose payload repeats the `id` key: the map unmarshal is
last-wins, so `task["id"]` is the number and the type assertion
panics on it. -/
def claimDupKey : TaskClaim :=
  { name := "cm5",
    annotations :=
      [("task-data",
        "\x7b\"id\":\"x\",\"id\":1,\"command\":\"c\",\"type\":\"cmd\",\"name\":\"n\"\x7d")] }

/-- A claim with a fully string-typed task payload. -/
def claimGood : TaskClaim :=
  { name := "cm2",
    annotations :=
      [("task-data",
        "\x7b\"id\":\"t2\",\"command\":\"echo hi\",\"type\":\"cmd\",\"name\":\"n\"\x7d")] }

/-- A claim already marked processed. -/
def claimDone : TaskClaim := { name := "cm3", annotations := [("processed", "true")] }

/-! ## Lemmas about the base64 model -/

/-- Standard-alphabet index decoding inverts encoding on 6-bit values,
and no alphabet character is the padding character. -/
theorem b64IndexStd_b64CharStd :
    ∀ i < 64, b64IndexStd (b64CharStd i) = some i ∧ b64CharStd i ≠ '=' := by decide

/-- Decoding a standard-alphabet encoding recovers the bytes. -/
theorem b64DecodeGroups_b64EncodeChunks :
    ∀ bs : List Nat, (∀ b ∈ bs, b < 256) →
      b64DecodeGroups (b64EncodeChunks b64CharStd bs) = some bs
  | [] => fun _ => rfl
  | [b1] => fun h => by
    have hb1 : b1 < 256 := h b1 (by simp)
    have h1 := b64IndexStd_b64CharStd (b1 / 4) (by omega)
    have h2 := b64IndexStd_b64CharStd ((b1 % 4) * 16) (by omega)
    simp [b64EncodeChunks, b64DecodeGroups, h1.1, h2.1]
    omega
  | [b1, b2] => fun h => by
    have hb1 : b1 < 256 := h b1 (by simp)
    have hb2 : b2 < 256 := h b2 (by simp)
    have h1 := b64IndexStd_b64CharStd (b1 / 4) (by omega)
    have h2 := b64IndexStd_b64CharStd ((b1 % 4) * 16 + b2 / 16) (by omega)
    have h3 := b64IndexStd_b64CharStd ((b2 % 16) * 4) (by omega)
    simp [b64EncodeChunks, b64DecodeGroups, h1.1, h2.1, h3.1, h3.2]
    omega
  | b1 :: b2 :: b3 :: rest => fun h => by
    have hb1 : b1 < 256 := h b1 (by simp)
    have hb2 : b2 < 256 := h b2 (by simp)
    have hb3 : b3 < 256 := h b3 (by simp)
    have hrest : ∀ b ∈ rest, b < 256 := fun b hb => h b (by simp [hb])
    have h1 := b64IndexStd_b64CharStd (b1 / 4) (by omega)
    have h2 := b64IndexStd_b64CharStd ((b1 % 4) * 16 + b2 / 16) (by omega)
    have h3 := b64IndexStd_b64CharStd ((b2 % 16) * 4 + b3 / 64) (by omega)
    have h4 := b64IndexStd_b64CharStd (b3 % 64) (by omega)
    have ih := b64DecodeGroups_b64EncodeChunks rest hrest
    simp [b64EncodeChunks, b64DecodeGroups, h1.1, h2.1, h3.1, h4.1, h3.2, h4.2, ih]
    omega

/-- A leading character outside the standard alphabet makes decoding fail. -/
theorem b64DecodeGroups_cons_none (c : Char) (cs : List Char) (h : b64IndexStd c = none) :
    b64DecodeGroups (c :: cs) = none := by
  match cs with
  | [] => rfl
  | [c2] => rfl
  | [c2, c3] => rfl
  | c2 :: c3 :: c4 :: rest => simp [b64DecodeGroups, h]

/-- Reassembling decoded bytes gives back the original ASCII text. -/
theorem bytesStr_strBytes (s : String) (h : ∀ c ∈ s.data, c.toNat < 256) :
    bytesStr (strBytes s) = s := by
  unfold bytesStr strBytes
  rw [List.map_map]
  have heq : s.data.map ((fun b => Char.ofNat (b % 256)) ∘ Char.toNat) = s.data.map id := by
    apply List.map_congr_left
    intro c hc
    simp [Function.comp, Nat.mod_eq_of_lt (h c hc), Char.ofNat_toNat]
  rw [heq, List.map_id]

/-- `DecodeString` inverts `EncodeToString` on ASCII text. -/
theorem b64DecodeStd_encodeStd (s : String) (h : ∀ c ∈ s.data, c.toNat < 256) :
    b64DecodeStdString (b64EncodeStdString s) = some s := by
  have hb : ∀ b ∈ strBytes s, b < 256 := by
    intro b hb
    obtain ⟨c, hc, rfl⟩ := List.mem_map.mp hb
    exact h c hc
  show (b64DecodeGroups (b64EncodeChunks b64CharStd (strBytes s))).map bytesStr = some s
  rw [b64DecodeGroups_b64EncodeChunks _ hb]
  simp [bytesStr_strBytes s h]

/-! ## Lemmas about the batch orchestrator -/

/-- Marking an input keeps every previously processed input processed. -/
theorem isProcessed_markProcessed_mono (fi : FetchedInput) (a x : String) (e : Option String)
    (h : isProcessed fi x = true) : isProcessed (markProcessed fi a e) x = true := by
  simp only [isProcessed, markProcessed, List.any_cons] at h ⊢
  simp [h]

/-- A marked input is processed. -/
theorem isProcessed_markProcessed_self (fi : FetchedInput) (a : String) (e : Option String) :
    isProcessed (markProcessed fi a e) a = true := by
  simp [isProcessed, markProcessed]

/-- A step of the loop with an already-processed head: `Execute` sends
nothing and the orchestrator blocks at once. -/
theorem execCmdLoop_cons_processed (probe : Probe) (types names : List String)
    (fi : FetchedInput) (i : Nat) (input : String) (rest : List String)
    (h : isProcessed fi input = true) :
    execCmdLoop probe types names fi i (input :: rest) =
      { results := none, calls := [] } := by
  simp [execCmdLoop, callFetchExecute, h]

/-- Probe calls of a step with an empty head. -/
theorem execCmdLoop_calls_cons_empty (probe : Probe) (types names : List String)
    (fi : FetchedInput) (i : Nat) (rest : List String)
    (h : isProcessed fi "" = false) :
    (execCmdLoop probe types names fi i ("" :: rest)).calls =
      (execCmdLoop probe types names (markProcessed fi "" none) (i + 1) rest).calls := by
  simp [execCmdLoop, callFetchExecute, h]

/-- Blocking behaviour of a step with an empty head. -/
theorem execCmdLoop_results_cons_empty (probe : Probe) (types names : List String)
    (fi : FetchedInput) (i : Nat) (rest : List String)
    (h : isProcessed fi "" = false) :
    ((execCmdLoop probe types names fi i ("" :: rest)).results = none ↔
      (execCmdLoop probe types names (markProcessed fi "" none) (i + 1) rest).results
        = none) := by
  simp [execCmdLoop, callFetchExecute, h]

/-- Probe calls of a step with a fresh non-empty head. -/
theorem execCmdLoop_calls_cons_probe (probe : Probe) (types names : List String)
    (fi : FetchedInput) (i : Nat) (input : String) (rest : List String)
    (h : isProcessed fi input = false) (hne : ¬ input = "") :
    (execCmdLoop probe types names fi i (input :: rest)).calls =
      (dispatchKind (if i < types.length then types.getD i "" else types.getD 0 ""),
        input) ::
      (execCmdLoop probe types names
        (markProcessed fi input (probe (dispatchKind (if i < types.length then
          types.getD i "" else types.getD 0 "")) input).2) (i + 1) rest).calls := by
  simp [execCmdLoop, callFetchExecute, h, hne]

/-- Blocking behaviour of a step with a fresh non-empty head. -/
theorem execCmdLoop_results_cons_probe (probe : Probe) (types names : List String)
    (fi : FetchedInput) (i : Nat) (input : String) (rest : List String)
    (h : isProcessed fi input = false) (hne : ¬ input = "") :
    ((execCmdLoop probe types names fi i (input :: rest)).results = none ↔
      (execCmdLoop probe types names
        (markProcessed fi input (probe (dispatchKind (if i < types.length then
          types.getD i "" else types.getD 0 "")) input).2) (i + 1) rest).results
        = none) := by
  simp [execCmdLoop, callFetchExecute, h, hne]

/-- Every probe call of the loop is for a not-yet-processed input, and
no input is probed twice. -/
theorem execCmdLoop_calls_spec (probe : Probe) (types names : List String) :
    ∀ (inputs : List String) (fi : FetchedInput) (i : Nat),
      (∀ x ∈ (execCmdLoop probe types names fi i inputs).calls.map Prod.snd,
        isProcessed fi x = false) ∧
      ((execCmdLoop probe types names fi i inputs).calls.map Prod.snd).Nodup := by
  intro inputs
  induction inputs with
  | nil => intro fi i; simp [execCmdLoop]
  | cons input rest ih =>
    intro fi i
    by_cases hproc : isProcessed fi input = true
    · rw [execCmdLoop_cons_processed probe types names fi i input rest hproc]
      simp
    · have hp : isProcessed fi input = false := by simpa using hproc
      by_cases hne : input = ""
      · subst hne
        rw [execCmdLoop_calls_cons_empty probe types names fi i rest hp]
        obtain ⟨ih1, ih2⟩ := ih (markProcessed fi "" none) (i + 1)
        refine ⟨?_, ih2⟩
        intro x hx
        have hfx := ih1 x hx
        by_contra hc
        simp only [Bool.not_eq_false] at hc
        rw [isProcessed_markProcessed_mono fi "" x none hc] at hfx
        simp at hfx
      · rw [execCmdLoop_calls_cons_probe probe types names fi i input rest hp hne]
        obtain ⟨ih1, ih2⟩ := ih (markProcessed fi input (probe (dispatchKind
          (if i < types.length then types.getD i "" else types.getD 0 "")) input).2)
          (i + 1)
        refine ⟨?_, ?_⟩
        · intro x hx
          simp only [List.map_cons, List.mem_cons] at hx
          rcases hx with rfl | hx
          · exact hp
          · have hfx := ih1 x hx
            by_contra hc
            simp only [Bool.not_eq_false] at hc
            rw [isProcessed_markProcessed_mono _ _ _ _ hc] at hfx
            simp at hfx
        · simp only [List.map_cons, List.nodup_cons]
          refine ⟨?_, ih2⟩
          intro hmem
          have hfx := ih1 input hmem
          rw [isProcessed_markProcessed_self] at hfx
          simp at hfx

/-- A batch containing an already-processed or repeated input makes the
loop stop without a full result list (the orchestrator blocks). -/
theorem execCmdLoop_dup_none (probe : Probe) (types names : List String) :
    ∀ (inputs : List String) (fi : FetchedInput) (i : Nat),
      ((¬ inputs.Nodup) ∨ ∃ x ∈ inputs, isProcessed fi x = true) →
      (execCmdLoop probe types names fi i inputs).results = none := by
  intro inputs
  induction inputs with
  | nil =>
    intro fi i h
    rcases h with h | ⟨x, hx, _⟩
    · exact absurd List.nodup_nil h
    · simp at hx
  | cons input rest ih =>
    intro fi i h
    by_cases hproc : isProcessed fi input = true
    · rw [execCmdLoop_cons_processed probe types names fi i input rest hproc]
    · have hp : isProcessed fi input = false := by simpa using hproc
      have hnext : ∀ e : Option String, (¬ rest.Nodup) ∨ ∃ x ∈ rest,
          isProcessed (markProcessed fi input e) x = true := by
        intro e
        rcases h with h | ⟨x, hx, hpx⟩
        · rw [List.nodup_cons] at h
          push_neg at h
          by_cases hmem : input ∈ rest
          · exact Or.inr ⟨input, hmem, isProcessed_markProcessed_self fi input e⟩
          · exact Or.inl (h hmem)
        · rcases List.mem_cons.mp hx with rfl | hxr
          · rw [hpx] at hp; simp at hp
          · exact Or.inr ⟨x, hxr, isProcessed_markProcessed_mono _ _ _ _ hpx⟩
      by_cases hne : input = ""
      · subst hne
        rw [execCmdLoop_results_cons_empty probe types names fi i rest hp]
        exact ih (markProcessed fi "" none) (i + 1) (hnext none)
      · rw [execCmdLoop_results_cons_probe probe types names fi i input rest hp hne]
        exact ih _ (i + 1) (hnext _)

/-! ## The claims -/

/-- Claim C1: a batch was claimed to yield exactly N ResultRecords in
submission order even when an input repeats.  Evaluating `execCmd` at
the failing batch `["echo x", "echo x"]` shows the second occurrence's
`Execute` returns without sending a result, so the orchestrator blocks
forever and no result list is ever produced, while the same input
submitted once yields its single in-order record. -/
theorem claim_C1 :
    (execCmd probeEcho ("subj") ["echo x", "echo x"] [] []).results = none ∧
    (execCmd probeEcho ("subj") ["echo x"] [] []).results =
      some [{ input := "echo x", name := "subj", error := "0", content := "x\n" }] :=
  ⟨rfl, rfl⟩

/-- Claim C2 (counterexample): for the batch `["x", "x"]` the probe runs
exactly once, but the second occurrence produces no ResultRecord at all
— there is no record observing the memoized outcome, and the batch
never completes. -/
theorem claim_C2_counterexample :
    (execCmd probeEcho ("s") ["x", "x"] ["cmd"] ["n"]).results = none ∧
    (execCmd probeEcho ("s") ["x", "x"] ["cmd"] ["n"]).calls = [(ProbeKind.cmd, "x")] :=
  ⟨rfl, rfl⟩

/-- Claim C2 (amended): within one batch the probe executes at most
once per input string; a repeated input short-circuits without
re-running, but instead of a ResultRecord observing the memoized
outcome it produces nothing, and the orchestrator blocks forever. -/
theorem claim_C2 (probe : Probe) (subject : String) (inputs types names : List String) :
    ((execCmd probe subject inputs types names).calls.map Prod.snd).Nodup ∧
    ((¬ inputs.Nodup) → (execCmd probe subject inputs types names).results = none) := by
  constructor
  · exact (execCmdLoop_calls_spec probe (if types.isEmpty then ["cmd"] else types)
      (if names.isEmpty then [subject] else names) inputs [] 0).2
  · intro hdup
    exact execCmdLoop_dup_none probe (if types.isEmpty then ["cmd"] else types)
      (if names.isEmpty then [subject] else names) inputs [] 0 (Or.inl hdup)

/-- Witness for claim C2 at the concrete batch `["y", "y"]`. -/
theorem claim_C2_witness :
    ((execCmd probeEcho ("s") ["y", "y"] [] []).calls.map Prod.snd).Nodup ∧
    (execCmd probeEcho ("s") ["y", "y"] [] []).results = none :=
  ⟨(claim_C2 probeEcho ("s") ["y", "y"] [] []).1,
   (claim_C2 probeEcho ("s") ["y", "y"] [] []).2 (by decide)⟩

/-- Claim C9: a WorkItem with empty input is a no-op — no probe is
invoked and its ResultRecord carries error code `"0"` and empty
content, both at the `Execute` level (on a fresh deduplication map)
and through a whole single-item batch. -/
theorem claim_C9 (probe : Probe) (subject sType name : String) :
    (callFetchExecute probe [] ("") sType name).emitted =
      some { input := "", name := name, error := "0", content := "" } ∧
    (callFetchExecute probe [] ("") sType name).calls = [] ∧
    (execCmd probe subject [""] [] []).results =
      some [{ input := "", name := subject, error := "0", content := "" }] ∧
    (execCmd probe subject [""] [] []).calls = [] :=
  ⟨rfl, rfl, rfl, rfl⟩

/-- Claim C10: `parseInputParams` pairs `type` values with inputs by
position among the items that supply the field: in a batch whose first
item omits `type` and whose second item sets `type":"get"`, the lone
`"get"` becomes `types[0]`, so the first input runs as an HTTP GET and
the second input falls back to `types[0]` — also `"get"`. -/
theorem claim_C10 (probe : Probe) :
    parseInputParams paramsTypeDemo = (["a", "b"], ["get"], []) ∧
    (execCmd probe ("") ["a", "b"] ["get"] []).calls =
      [(ProbeKind.httpGet, "a"), (ProbeKind.httpGet, "b")] :=
  ⟨rfl, rfl⟩

/-- Claim C3: the spec claimed pipe-alternation expect expressions
decide the error code.  The code has no expectation evaluator:
`parseInputParams` drops the `expect` field of the failing item, and a
successful probe yields error code `"0"` although no alternative of
`"a|b|c"` occurs in the captured content `"hello\n"` (the claim
required `"-1"`). -/
theorem claim_C3 :
    parseInputParams paramsExpectDemo = (["echo hello"], [], []) ∧
    (execCmd probeHello ("") ["echo hello"] [] []).results =
      some [{ input := "echo hello", name := "", error := "0", content := "hello\n" }] ∧
    strContains ("hello\n") ("a") = false ∧
    strContains ("hello\n") ("b") = false ∧
    strContains ("hello\n") ("c") = false :=
  ⟨rfl, rfl, rfl, rfl, rfl⟩

/-- Claim C4: the spec claimed the probe timeout is the per-item value.
The code drops the `timeout` field at parsing (the failing item's
`timeout:"1"` never reaches a WorkItem) and both probes install the
constant 10-second default, not the item's 1 second. -/
theorem claim_C4 :
    parseInputParams paramsTimeoutDemo = (["sleep 30"], [], []) ∧
    exeCmdTimeoutSeconds ("sleep 30") = 10 ∧
    fetchHTTPTimeoutSeconds ("sleep 30") = 10 ∧
    (10 : Nat) ≠ 1 :=
  ⟨rfl, rfl, rfl, by decide⟩

/-- Claim C5 (counterexample): a GET request whose params value
`"@@@"` is neither decodable base64 nor valid JSON is answered with
HTTP 200 and an empty result array, not with the claimed HTTP 400. -/
theorem claim_C5_counterexample :
    getHandle probeNull ("") ("@@@") = (200, some []) ∧ (200 : Nat) ≠ 400 :=
  ⟨rfl, by decide⟩

/-- Claim C5 (amended): `getHandle` never reports submission errors to
the caller — its status is always 200, and a malformed params value
yields an empty result array; the only non-2xx responses come from
`postHandle`, precisely for a form parse failure or a missing `type`
or `params` field. -/
theorem claim_C5 (probe : Probe) (subject paramStr : String) :
    (getHandle probe subject paramStr).1 = 200 ∧
    (parseInputParams paramStr = ([], [], []) →
      getHandle probe subject paramStr = (200, some [])) ∧
    (∀ (formOk : Bool) (sType nameStr : String),
      (postHandle probe subject formOk sType nameStr paramStr).1 = 400 ↔
        (formOk = false ∨ sType = "" ∨ paramStr = "")) := by
  refine ⟨rfl, ?_, ?_⟩
  · intro h
    have hdef : getHandle probe subject paramStr =
        (200, (execCmd probe subject (parseInputParams paramStr).1
          (parseInputParams paramStr).2.1 (parseInputParams paramStr).2.2).results) := rfl
    rw [hdef, h]
    rfl
  · intro formOk sType nameStr
    cases formOk with
    | false => simp [postHandle]
    | true =>
      by_cases hs : sType = "" <;> by_cases hp : paramStr = "" <;>
        simp [postHandle, hs, hp]

/-- Witness for claim C5 at concrete requests. -/
theorem claim_C5_witness :
    getHandle probeNull ("x") ("###") = (200, some []) ∧
    (postHandle probeNull ("x") true ("cmd") ("nm") ("")).1 = 400 :=
  ⟨(claim_C5 probeNull ("x") ("###")).2.1 (by rfl),
   ((claim_C5 probeNull ("x") ("")).2.2 true ("cmd") ("nm")).mpr
     (Or.inr (Or.inr rfl))⟩

/-- Claim C6 (counterexample): the URL-alphabet encoding of the batch
with input `"~~~"` differs from the standard encoding, is rejected by
the standard-alphabet decode that `parseInputParams` tries, and then
fails the JSON fallback — yielding the empty batch instead of the
batch itself, while the standard encoding and the raw JSON both parse
to the batch. -/
theorem claim_C6_counterexample :
    parseInputParams (b64EncodeUrlString paramsTilde) = ([], [], []) ∧
    parseInputParams paramsTilde = (["~~~"], [], []) ∧
    parseInputParams (b64EncodeStdString paramsTilde) = (["~~~"], [], []) ∧
    b64EncodeUrlString paramsTilde ≠ b64EncodeStdString paramsTilde :=
  ⟨rfl, rfl, rfl, by decide⟩

/-- Claim C6 (amended): the round-trip law holds for the standard
alphabet: for any ASCII params document starting with an opening
brace (in particular any serialized batch), parsing its standard
base64 encoding and parsing it directly agree. -/
theorem claim_C6 (P : String) (hAscii : ∀ c ∈ P.data, c.toNat < 128)
    (hHead : P.data.head? = some '\x7b') :
    parseInputParams (b64EncodeStdString P) = parseInputParams P := by
  have h256 : ∀ c ∈ P.data, c.toNat < 256 := fun c hc =>
    Nat.lt_trans (hAscii c hc) (by omega)
  have hdec := b64DecodeStd_encodeStd P h256
  have hfail : b64DecodeStdString P = none := by
    unfold b64DecodeStdString
    cases hP : P.data with
    | nil => rw [hP] at hHead; simp at hHead
    | cons c cs =>
      rw [hP] at hHead
      simp only [List.head?_cons, Option.some.injEq] at hHead
      subst hHead
      rw [b64DecodeGroups_cons_none _ _ (by decide)]
      rfl
  unfold parseInputParams
  rw [hdec, hfail]

/-- Witness for claim C6 at a concrete single-command batch. -/
theorem claim_C6_witness :
    parseInputParams (b64EncodeStdString paramsStdDemo) = parseInputParams paramsStdDemo ∧
    parseInputParams paramsStdDemo = (["pwd"], [], []) :=
  ⟨claim_C6 paramsStdDemo (by decide) (by decide), rfl⟩

/-! ## Lemmas about the task distributor -/

/-- The assignment loop emits one create request per task. -/
theorem distributeLoop_length (wp : List String) (ts : Nat) :
    ∀ (tasks : List Task) (i : Nat), (distributeLoop wp ts i tasks).length = tasks.length := by
  intro tasks
  induction tasks with
  | nil => intro i; rfl
  | cons t rest ih => intro i; simp [distributeLoop, ih (i + 1)]

/-- The `k`-th request of the assignment loop started at offset `i`
targets follower `(i + k) % |wp|`. -/
theorem distributeLoop_get (wp : List String) (ts : Nat) :
    ∀ (tasks : List Task) (i k : Nat), k < tasks.length →
      (distributeLoop wp ts i tasks)[k]? =
        some (assignTaskToPod (wp.getD ((i + k) % wp.length) ("")) (tasks.getD k default) ts) := by
  intro tasks
  induction tasks with
  | nil => intro i k hk; simp at hk
  | cons t rest ih =>
    intro i k hk
    cases k with
    | zero => simp [distributeLoop]
    | succ k =>
      have hk2 : k < rest.length := by simpa using hk
      have := ih (i + 1) k hk2
      simp only [distributeLoop, List.getElem?_cons_succ, List.getD_cons_succ]
      rw [this]
      have harith : i + 1 + k = i + (k + 1) := by omega
      rw [harith]

/-- Claim C7: in a distribution round with follower set `F` and tasks
`T`, task `k` is assigned to follower `k mod |F|` via a ClaimRecord
whose `assigned-to` label is that follower and whose `task-data`
annotation is the serialized task; with `|F| = 0` the round creates no
ClaimRecord. -/
theorem claim_C7 (hostname : String) (ts : Nat) (pods : List PodInfo) (tasks : List Task) :
    (filterWorkerPods hostname pods = [] → distributeTasks hostname pods tasks ts = []) ∧
    (filterWorkerPods hostname pods ≠ [] →
      (distributeTasks hostname pods tasks ts).length = tasks.length ∧
      ∀ k, k < tasks.length →
        (distributeTasks hostname pods tasks ts)[k]? =
          some { name := "task-" ++ (filterWorkerPods hostname pods).getD
                   (k % (filterWorkerPods hostname pods).length) ("") ++ "-" ++ toString ts,
                 labels := [("project", "mcall"), ("task", "true"),
                   ("assigned-to", (filterWorkerPods hostname pods).getD
                     (k % (filterWorkerPods hostname pods).length) (""))],
                 annotations := [("task-data", serializeTask (tasks.getD k default))] }) := by
  constructor
  · intro hF
    unfold distributeTasks
    rw [hF]
    simp
  · intro hF
    by_cases ht : tasks.isEmpty
    · have : tasks = [] := List.isEmpty_iff.mp ht
      subst this
      refine ⟨?_, ?_⟩
      · unfold distributeTasks; simp
      · intro k hk; simp at hk
    · have hFe : (filterWorkerPods hostname pods).isEmpty = false := by
        cases hFc : filterWorkerPods hostname pods with
        | nil => exact absurd hFc hF
        | cons a l => rfl
      have hdist : distributeTasks hostname pods tasks ts =
          distributeLoop (filterWorkerPods hostname pods) ts 0 tasks := by
        unfold distributeTasks
        rw [if_neg (by simp [ht]), hFe]
        simp
      refine ⟨?_, ?_⟩
      · rw [hdist]; exact distributeLoop_length _ _ tasks 0
      · intro k hk
        rw [hdist, distributeLoop_get _ _ tasks 0 k hk]
        simp [assignTaskToPod]

/-- Witness for claim C7: with followers `["p1", "p2"]` and three
tasks, task 2 goes to follower `2 mod 2 = 0`, i.e. `p1`. -/
theorem claim_C7_witness :
    (distributeTasks ("self") podsDemo tasksDemo 111).length = 3 ∧
    (distributeTasks ("self") podsDemo tasksDemo 111)[2]? =
      some { name := "task-p1-111",
             labels := [("project", "mcall"), ("task", "true"), ("assigned-to", "p1")],
             annotations := [("task-data", serializeTask (tasksDemo.getD 2 default))] } := by
  have h := (claim_C7 ("self") 111 podsDemo tasksDemo).2 (by decide)
  exact ⟨h.1, h.2 2 (by decide)⟩

/-! ## Lemmas about the task worker -/

/-- Characterization of a string-typed JSON field. -/
theorem isJstr_iff (o : Option Json) : isJstr o = true ↔ ∃ s, o = some (Json.jstr s) := by
  cases o with
  | none => simp [isJstr]
  | some j => cases j <;> simp [isJstr]

/-- A fully string-typed task object cannot make `executeTask` panic. -/
theorem executeTask_of_taskTyped (probe : Probe) (subject : String)
    (task : List (String × Json)) (h : taskTyped task = true) :
    ∃ rs, executeTask probe subject task = some rs := by
  unfold taskTyped at h
  simp only [Bool.and_eq_true] at h
  obtain ⟨⟨⟨h1, h2⟩, h3⟩, h4⟩ := h
  obtain ⟨s1, e1⟩ := (isJstr_iff _).mp h1
  obtain ⟨s2, e2⟩ := (isJstr_iff _).mp h2
  obtain ⟨s3, e3⟩ := (isJstr_iff _).mp h3
  obtain ⟨s4, e4⟩ := (isJstr_iff _).mp h4
  refine ⟨(execCmd probe subject [s2] [s3] [s4]).results.getD [], ?_⟩
  unfold executeTask
  rw [e1, e2, e3, e4]

/-- Claim C8 (counterexample): a tick whose first claim carries a
Go-decodable payload without a string `id` — an object with no `id`,
one with a fractional-number `id`, or one whose repeated `id` key
resolves last-wins to a number — panics in `executeTask`'s type
assertion and aborts, so the remaining claim is never processed. -/
theorem claim_C8_counterexample :
    processAssignedTasks probeEcho ("") ("pod") ("t0") (fun _ => true)
      [claimBad, claimGood] = Except.error ("cm1") ∧
    processAssignedTasks probeEcho ("") ("pod") ("t0") (fun _ => true)
      [claimFloat, claimGood] = Except.error ("cm4") ∧
    processAssignedTasks probeEcho ("") ("pod") ("t0") (fun _ => true)
      [claimDupKey, claimGood] = Except.error ("cm5") :=
  ⟨rfl, rfl, rfl⟩

/-- Claim C8 (amended): as long as every listed claim is skippable
(already processed, empty, or not unmarshallable into a map) or its
payload unmarshals — fraction/exponent numbers and last-wins
duplicate keys included — to a map whose `id`, `command`, `type` and
`name` are all strings, errors from task execution or from the claim
update (any `updateOk` outcome) are logged and do not abort the tick:
the tick completes having visited every claim.  A payload whose map
is missing one of the four string fields instead panics and aborts
the tick. -/
theorem claim_C8 (probe : Probe) (subject podName nowStr : String)
    (updateOk : String → Bool) (claims : List TaskClaim)
    (h : ∀ cm ∈ claims, claimSafe cm = true) :
    ∃ l, processAssignedTasks probe subject podName nowStr updateOk claims =
      Except.ok l ∧ l.length = claims.length := by
  induction claims with
  | nil => exact ⟨[], rfl, rfl⟩
  | cons cm rest ih =>
    obtain ⟨l, hl, hlen⟩ := ih (fun c hc => h c (List.mem_cons_of_mem _ hc))
    have hcm := h cm (List.mem_cons_self _ _)
    by_cases h1 : annGet cm ("processed") = "true"
    · refine ⟨cm :: l, ?_, by simp [hlen]⟩
      simp [processAssignedTasks, h1, hl, Except.map]
    · by_cases h2 : annGet cm ("task-data") = ""
      · refine ⟨cm :: l, ?_, by simp [hlen]⟩
        simp [processAssignedTasks, h1, h2, hl, Except.map]
      · cases hparse : (parseJson (annGet cm ("task-data"))).bind toJobj with
        | none =>
          refine ⟨cm :: l, ?_, by simp [hlen]⟩
          simp [processAssignedTasks, h1, h2, hparse, hl, Except.map]
        | some task =>
          have htyped : taskTyped task = true := by
            have ha : (annGet cm ("processed") == "true") = false := by
              simpa using h1
            have hb : (annGet cm ("task-data") == "") = false := by
              simpa using h2
            unfold claimSafe at hcm
            rw [hparse, ha, hb] at hcm
            simpa using hcm
          obtain ⟨rs, hex⟩ := executeTask_of_taskTyped probe subject task htyped
          refine ⟨(if updateOk cm.name then
              { cm with annotations :=
                  annSet (annSet (annSet cm.annotations ("processed") ("true"))
                    ("processed-at") nowStr) ("processed-by") podName }
            else cm) :: l, ?_, by simp [hlen]⟩
          simp [processAssignedTasks, h1, h2, hparse, hex, hl, Except.map]

/-- Witness for claim C8: a tick over a well-typed claim and an
already-processed claim, with every store update failing, still
completes over both claims. -/
theorem claim_C8_witness :
    ∃ l, processAssignedTasks probeEcho ("") ("pod") ("t0") (fun _ => false)
      [claimGood, claimDone] = Except.ok l ∧ l.length = 2 :=
  claim_C8 probeEcho ("") ("pod") ("t0") (fun _ => false) [claimGood, claimDone] (by decide)

/-- Witness for claim C9 at a concrete probe oracle. -/
theorem claim_C9_witness :
    (callFetchExecute probeNull [] ("") ("cmd") ("nm")).emitted =
      some { input := "", name := "nm", error := "0", content := "" } ∧
    (callFetchExecute probeNull [] ("") ("cmd") ("nm")).calls = [] ∧
    (execCmd probeNull ("subj") [""] [] []).results =
      some [{ input := "", name := "subj", error := "0", content := "" }] ∧
    (execCmd probeNull ("subj") [""] [] []).calls = [] :=
  claim_C9 probeNull ("subj") ("cmd") ("nm")

/-- Witness for claim C10 at a concrete probe oracle. -/
theorem claim_C10_witness :
    parseInputParams paramsTypeDemo = (["a", "b"], ["get"], []) ∧
    (execCmd probeNull ("") ["a", "b"] ["get"] []).calls =
      [(ProbeKind.httpGet, "a"), (ProbeKind.httpGet, "b")] :=
  claim_C10 probeNull

end Mcall
